import Mathlib

/-!
Verification of the turn-orchestrator core of the ai-avatars-stream
repository.  The Python modules `src/retry.py`, `src/llm.py`,
`src/topic.py` and `src/orchestrator.py` are shallowly embedded as
executable Lean definitions; wall-clock times and random jitter become
explicit rational parameters, the file system and process environment
become explicit records, and the external collaborators (OpenAI, HeyGen,
OBS) become parameters or emitted effect lists.  The theorems at the end
of the file settle the behavioural claims about speaker alternation,
queue ordering, retry/backoff, content throttling, sentence truncation,
topic override expiry, video-render caching, degradation to bridge
phrases, and idle playback.
-/

set_option maxHeartbeats 1000000

/-! ## Basic string helpers shared by the embedded modules -/

/-- Substring test on character lists: true when `pat` occurs as a
contiguous sub-list of `s` (Python's `pat in s` on strings). -/
def charsStartWith : List Char → List Char → Bool
  | [], _ => true
  | _ :: _, [] => false
  | p :: ps, c :: cs => p == c && charsStartWith ps cs

/-- Occurrence of `pat` anywhere in `s`, by scanning every tail. -/
def charsContain (pat : List Char) : List Char → Bool
  | [] => pat.isEmpty
  | c :: cs => charsStartWith pat (c :: cs) || charsContain pat cs

/-- Python `pat in s` for strings. -/
def strContains (s pat : String) : Bool :=
  charsContain pat.data s.data

/-- Python `str.lower` restricted to the alphabets that actually occur in
the orchestrator's keyword tables: ASCII letters and the basic Cyrillic
block (U+0410..U+042F plus Ё). -/
def pyLowerChar (c : Char) : Char :=
  if 0x410 ≤ c.toNat ∧ c.toNat ≤ 0x42F then Char.ofNat (c.toNat + 0x20)
  else if c.toNat = 0x401 then Char.ofNat 0x451
  else c.toLower

/-- Python `text.lower()` for the program's character repertoire. -/
def pyLower (s : String) : String :=
  String.mk (s.data.map pyLowerChar)

/-- Python `xs[-n:]` for `n > 0`: the last `n` elements of a list. -/
def pyLastN (n : Nat) (xs : List α) : List α :=
  xs.drop (xs.length - n)

/-- Python `str.strip()` whitespace test (the `str` whitespace set). -/
def pyIsSpace (c : Char) : Bool :=
  c.toNat = 0x20 || (0x9 ≤ c.toNat && c.toNat ≤ 0xD) ||
  (0x1C ≤ c.toNat && c.toNat ≤ 0x1F) || c.toNat = 0x85 || c.toNat = 0xA0 ||
  c.toNat = 0x1680 || (0x2000 ≤ c.toNat && c.toNat ≤ 0x200A) ||
  c.toNat = 0x2028 || c.toNat = 0x2029 || c.toNat = 0x202F ||
  c.toNat = 0x205F || c.toNat = 0x3000

/-- Python `s.strip()`: leading and trailing whitespace removed. -/
def pyStrip (s : String) : String :=
  String.mk (((s.data.dropWhile pyIsSpace).reverse.dropWhile pyIsSpace).reverse)

/-! ## src/retry.py

`retry(fn, max_retries=…)` invokes `fn` up to `max_retries` times,
sleeping after every failed attempt, and finally re-raises the last
error (`raise last_err`, which raises a `TypeError` if `last_err` is
still `None` because the loop body never ran).  The behaviour of the
external function is a map from attempt number (1-based) to `Except`;
the result pairs the final outcome with the number of invocations.
`Except.error none` models the `raise None` path that produces an
exception not originating from `fn`. -/

def retryGo (f : Nat → Except E A) : Nat → Nat → Option E → Except (Option E) A × Nat
  | _, 0, lastErr => (Except.error lastErr, 0)
  | attempt, fuel + 1, _ =>
    match f attempt with
    | Except.ok a => (Except.ok a, 1)
    | Except.error e =>
      let r := retryGo f (attempt + 1) fuel (some e)
      (r.1, r.2 + 1)

/-- The `retry` combinator of `src/retry.py`: attempts run from 1 to
`max_retries`; a non-positive `max_retries` skips the loop entirely. -/
def retryRun (f : Nat → Except E A) (maxRetries : Int) : Except (Option E) A × Nat :=
  retryGo f 1 maxRetries.toNat none

/-- Sleep duration after failed attempt `attempt` in `src/retry.py`:
`min(max_delay_s, base_delay_s * 2^(attempt-1)) * (0.7 + random()*0.6)`
with the random draw `r ∈ [0,1)` passed explicitly. -/
def retryDelay (baseDelayS maxDelayS : ℚ) (attempt : Nat) (r : ℚ) : ℚ :=
  min maxDelayS (baseDelayS * 2 ^ (attempt - 1)) * (7/10 + r * (6/10))

/-! ## src/llm.py

Sentence truncation is driven by the regular expression
`[^.!?…]+(?:[.!?…]+|$)`: a match is a maximal run of non-terminal
characters followed by the maximal run of terminal punctuation (or the
end of the string).  `finditer` therefore skips terminal characters that
precede the first non-terminal character and otherwise partitions the
rest of the string.  The two mutually recursive functions below walk the
character list in exactly that way. -/

/-- Terminal sentence punctuation of `_SENT_RE`: '.', '!', '?' or '…'. -/
def isTerm (c : Char) : Bool :=
  c == '.' || c == '!' || c == '?' || c == '…'

/-- One pass of the `finditer` loop: `inPunct = false` while reading the
sentence body (`[^.!?…]+`), `true` while reading its trailing
punctuation run (`[.!?…]+`); `acc` holds the current match reversed. -/
def sentGo : Bool → List Char → List Char → List (List Char)
  | _, acc, [] => [acc.reverse]
  | inPunct, acc, c :: cs =>
    if isTerm c then sentGo true (c :: acc) cs
    else if inPunct then acc.reverse :: sentGo false [c] cs
    else sentGo false (c :: acc) cs

/-- All matches of `_SENT_RE` in `text`, in order. -/
def sentMatches (text : String) : List String :=
  match text.data.dropWhile isTerm with
  | [] => []
  | c :: cs => (sentGo false [c] cs).map String.mk

/-- The `parts` list of `_limit_sentences`: every regex match, stripped,
with empty results dropped. -/
def sentParts (text : String) : List String :=
  ((sentMatches text).map pyStrip).filter (fun s => s ≠ "")

/-- `_limit_sentences(text, max_sentences)` from `src/llm.py`. -/
def limitSentences (text : String) (maxSentences : Int) : String :=
  if maxSentences ≤ 0 then pyStrip text
  else
    let parts := sentParts text
    if parts = [] then pyStrip text
    else pyStrip (String.intercalate " " (parts.take maxSentences.toNat))

/-- Environment slice consulted by `_bridge_phrase`. -/
structure BridgeEnv where
  common : Option String
  phraseA : Option String
  phraseB : Option String

/-- `_bridge_phrase(speaker)` from `src/llm.py`: a common override wins,
otherwise per-speaker environment values with fixed Russian defaults. -/
def bridgePhrase (env : BridgeEnv) (speaker : String) : String :=
  let common := pyStrip (env.common.getD "")
  if common ≠ "" then common
  else if speaker = "A" then pyStrip (env.phraseA.getD "Коротко: продолжим с ключевого теста.")
  else pyStrip (env.phraseB.getD "Ок, давай сузим до одного проверяемого теста.")

/-- The text produced by `generate_turn`: the external call (already
stripped, as `_call` strips the response) is retried with the default
budget of 5 attempts; on exhaustion the bridge phrase is substituted;
either way the result is truncated to `maxSentences` sentences. -/
def generateTurnText (calls : Nat → Except String String) (speaker : String)
    (env : BridgeEnv) (maxSentences : Int) : String :=
  let text :=
    match (retryRun calls 5).1 with
    | Except.ok t => t
    | Except.error _ => bridgePhrase env speaker
  limitSentences text maxSentences

/-- `generate_turn` returns the post-processed text together with the
elapsed latency (wall-clock time passed explicitly). -/
def generateTurn (calls : Nat → Except String String) (speaker : String)
    (env : BridgeEnv) (maxSentences : Int) (elapsed : ℚ) : String × ℚ :=
  (generateTurnText calls speaker env maxSentences, elapsed)

/-! ## src/topic.py

`TopicProvider` keeps an optional time-limited override, an environment
topic, and a cached file-backed topic reloaded when the file's
modification time changes.  Wall-clock `time.time()` and the process
environment / file system are passed explicitly.  Python truthiness is
modelled faithfully: a string is truthy when non-empty, a float when
non-zero. -/

/-- Truthiness of an optional Python string. -/
def pyTruthyS : Option String → Bool
  | none => false
  | some s => s ≠ ""

/-- Truthiness of an optional Python float (0.0 is falsy). -/
def pyTruthyQ : Option ℚ → Bool
  | none => false
  | some q => q ≠ 0

/-- Mutable fields of `TopicProvider`. -/
structure TopicState where
  lastCheck : ℚ
  lastMtime : Option ℚ
  cached : Option String
  overrideTopic : Option String
  overrideExpiresAt : Option ℚ
  overrideSource : Option String
  overrideAuthor : Option String
deriving DecidableEq

/-- The snapshot of the outside world read by `TopicProvider.get`. -/
structure TopicWorld where
  envTopic : Option String
  fileExists : Bool
  fileMtime : ℚ
  fileText : String
deriving DecidableEq

/-- Hard-coded default topic of `src/topic.py`. -/
def defaultTopic : String := "Научная дискуссия: старение и долголетие"

/-- Fresh `TopicProvider` state (constructor of `src/topic.py`). -/
def topicInit : TopicState :=
  ⟨0, none, none, none, none, none, none⟩

/-- `TopicProvider.set_override(topic, ttl_s=…, source=…, author=…)`. -/
def setOverride (st : TopicState) (topic : String) (now ttlS : ℚ)
    (source : String) (author : Option String) : TopicState :=
  let t := pyStrip topic
  if t = "" then st
  else { st with
         overrideTopic := some t
         overrideExpiresAt := some (now + ttlS)
         overrideSource := some source
         overrideAuthor := author }

/-- State with every override field dropped, as done by the expiry branch
of `TopicProvider.get`. -/
def clearOverride (st : TopicState) : TopicState :=
  { st with overrideTopic := none, overrideExpiresAt := none,
            overrideSource := none, overrideAuthor := none }

/-- The environment/file/default part of `TopicProvider.get()` (the code
after the override checks), with `reload_s` from the configuration. -/
def topicGetNoOverride (reloadS : ℚ) (st : TopicState) (now : ℚ) (w : TopicWorld) :
    String × TopicState :=
  if pyTruthyS w.envTopic then
    let c := pyStrip (w.envTopic.getD "")
    (c, { st with cached := some c })
  else if pyTruthyS st.cached ∧ now - st.lastCheck < reloadS then
    (st.cached.getD "", st)
  else
    let st := { st with lastCheck := now }
    if ¬ w.fileExists then
      let c := if pyTruthyS st.cached then st.cached else some defaultTopic
      (c.getD "", { st with cached := c })
    else
      let st :=
        if st.lastMtime = none ∨ st.lastMtime ≠ some w.fileMtime then
          { st with lastMtime := some w.fileMtime,
                    cached := if pyStrip w.fileText ≠ "" then some (pyStrip w.fileText)
                              else st.cached }
        else st
      (if pyTruthyS st.cached then st.cached.getD "" else defaultTopic, st)

/-- `TopicProvider.get()`: an unexpired override is returned outright, an
expired one is dropped, and otherwise the environment/file/default chain
`topicGetNoOverride` decides the topic. -/
def topicGet (reloadS : ℚ) (st : TopicState) (now : ℚ) (w : TopicWorld) :
    String × TopicState :=
  if pyTruthyS st.overrideTopic ∧ pyTruthyQ st.overrideExpiresAt ∧
      now < st.overrideExpiresAt.getD 0 then
    (st.overrideTopic.getD "", st)
  else
    let st :=
      if pyTruthyS st.overrideTopic ∧ pyTruthyQ st.overrideExpiresAt ∧
          st.overrideExpiresAt.getD 0 ≤ now then
        clearOverride st
      else st
    topicGetNoOverride reloadS st now w

/-! ## src/orchestrator.py — speaker parity and content throttling -/

/-- `Orchestrator._next_speaker(turn_id)`. -/
def nextSpeaker (turnId : Nat) : String :=
  if turnId % 2 = 1 then "A" else "B"

/-- One entry of `_test_class_specs`: a label with its `all`/`any`
keyword requirements. -/
structure TestSpec where
  label : String
  allReq : List String
  anyReq : List String

/-- The ordered, mutually exclusive keyword-spec table of the
orchestrator constructor (more specific classes first). -/
def testClassSpecs : List TestSpec :=
  [ ⟨"epigenetic clocks", [], ["эпигенет", "epigenetic", "clock", "метилир", "метил"]⟩,
    ⟨"senescence markers", [], ["сенесц", "senescence", "p16", "p21", "sasp"]⟩,
    ⟨"mitochondrial function", [], ["митохонд", "mitochond", "ros", "oxidative", "окисл"]⟩,
    ⟨"proteostasis", [], ["протеостаз", "proteostasis", "autophagy", "аутофаг"]⟩,
    ⟨"inflammaging/immune", [], ["воспал", "inflamm", "immune", "иммун", "cytokine", "циток"]⟩,
    ⟨"stem cell exhaustion", [], ["стволов", "stem cell", "stэм", "клеточ"]⟩,
    ⟨"metabolic rate", [], ["метабол", "metabolic", "insulin", "igf", "mTOR", "rapamycin", "метформ"]⟩ ]

/-- Whether a spec row accepts a lowercased text: a non-empty `all` list
must be fully present and a non-empty `any` list must hit at least once. -/
def specAccepts (sp : TestSpec) (t : String) : Bool :=
  (sp.allReq.isEmpty || sp.allReq.all (fun k => strContains t k)) &&
  (sp.anyReq.isEmpty || sp.anyReq.any (fun k => strContains t k))

/-- `Orchestrator._classify_test(text)`: the label of the first matching
spec, if any. -/
def classifyTest (text : String) : Option String :=
  let t := pyLower text
  testClassSpecs.findSome? (fun sp => if specAccepts sp t then some sp.label else none)

/-- `Orchestrator._recent_test_classes(history, window)` over the text
field of each history entry. -/
def recentTestClasses (history : List String) (window : Int) : List String :=
  if history.isEmpty then []
  else
    let recent := if window > 0 then pyLastN window.toNat history else history
    recent.filterMap classifyTest

/-- Insertion into a ≤-sorted list of strings (code-point order, as
Python's `sorted` uses). -/
def insertSorted (x : String) : List String → List String
  | [] => [x]
  | y :: ys => if x ≤ y then x :: y :: ys else y :: insertSorted x ys

/-- Python `sorted(set)` over strings: duplicates removed, then sorted. -/
def pySortedSet (xs : List String) : List String :=
  xs.dedup.foldr insertSorted []

/-- The `blocked_classes` computation inside `Orchestrator.prefetch_next`
(window/max taken from `TEST_CLASS_WINDOW` / `TEST_CLASS_MAX`). -/
def blockedClasses (history : List String) (window maxCount : Int) : List String :=
  if window > 0 ∧ maxCount > 0 then
    let recent := recentTestClasses history window
    if ¬ recent.isEmpty then
      pySortedSet (recent.filter (fun c => maxCount ≤ (recent.count c : Int)))
    else []
  else []

/-- `self.test_cycle` of the orchestrator constructor. -/
def testCycle : List String :=
  [ "epigenetic clocks", "senescence markers", "mitochondrial function",
    "proteostasis", "inflammaging/immune", "stem cell exhaustion",
    "metabolic rate" ]

/-- The suggested test named by the test-cycle rotation directive of
`Orchestrator.prefetch_next` for the turn numbered `nextTurnId`
(`none` when the rotation rule does not fire this turn). -/
def rotationSuggestion (blocked : List String) (nextTurnId : Nat)
    (testSwitchEveryN : Int) (isClosing : Bool) : Option String :=
  if ¬ isClosing ∧ testSwitchEveryN > 0 ∧ nextTurnId > 1 ∧
      nextTurnId % testSwitchEveryN.toNat = 1 then
    let idx := (nextTurnId / testSwitchEveryN.toNat) % testCycle.length
    let s0 := testCycle.getD idx ""
    let suggested :=
      if ¬ blocked.isEmpty ∧ s0 ∈ blocked then
        match (List.range testCycle.length).find?
            (fun i => ¬ (testCycle.getD ((idx + i) % testCycle.length) "") ∈ blocked) with
        | some i => testCycle.getD ((idx + i) % testCycle.length) ""
        | none => s0
      else s0
    some suggested
  else none

/-! ## src/orchestrator.py — turn queue, prefetch/playback interleaving

`prefetch_next` computes `next_turn_id = turn_seq + 1` under the lock,
stops when it exceeds `max_turns`, and otherwise publishes the prepared
turn by setting `turn_seq := next_turn_id` and appending the turn at the
tail of the deque; `play_next` removes from the head only.  The step
relation below captures exactly those queue/counter updates, with the
two loops interleaving arbitrarily. -/

/-- The queue-relevant part of a prepared `Turn`. -/
structure QTurn where
  id : Nat
  speaker : String
deriving DecidableEq

/-- Shared orchestrator state: turn counter, pending queue, and the
(history of) turns already consumed by playback, in consumption order. -/
structure QState where
  turnSeq : Nat
  queue : List QTurn
  played : List QTurn
deriving DecidableEq

/-- Initial orchestrator state. -/
def qInit : QState := ⟨0, [], []⟩

/-- One step of either loop: a prefetch cycle that publishes turn
`turn_seq + 1` at the tail (when `max_turns` permits), a prefetch cycle
that only sets the stop flag, a playback step that pops the head, or an
idle playback step on an empty queue. -/
inductive QStep (maxTurns : Int) : QState → QState → Prop
  | prefetch (s : QState)
      (hmax : maxTurns ≤ 0 ∨ ((s.turnSeq : Int) + 1 ≤ maxTurns)) :
      QStep maxTurns s
        ⟨s.turnSeq + 1,
         s.queue ++ [⟨s.turnSeq + 1, nextSpeaker (s.turnSeq + 1)⟩],
         s.played⟩
  | prefetchStop (s : QState)
      (h : 0 < maxTurns ∧ maxTurns < (s.turnSeq : Int) + 1) :
      QStep maxTurns s s
  | playTurn (s : QState) (t : QTurn) (rest : List QTurn)
      (h : s.queue = t :: rest) :
      QStep maxTurns s ⟨s.turnSeq, rest, s.played ++ [t]⟩
  | playIdle (s : QState) (h : s.queue = []) :
      QStep maxTurns s s

/-- States reachable from the initial state by interleaved prefetch and
playback steps. -/
inductive QReach (maxTurns : Int) : QState → Prop
  | init : QReach maxTurns qInit
  | step {s s' : QState} : QReach maxTurns s → QStep maxTurns s s' →
      QReach maxTurns s'

/-- Queue invariant: consumed and pending turns together carry exactly
the ids `1..turnSeq` in order, and every turn's speaker is the parity
speaker of its id. -/
def qInv (s : QState) : Prop :=
  (s.played ++ s.queue).map QTurn.id = List.range' 1 s.turnSeq ∧
  ∀ t ∈ s.played ++ s.queue, t.speaker = nextSpeaker t.id

/-! ## src/orchestrator.py — cached video rendering -/

/-- Left-pad a numeral with zeroes to width 5 (Python `f"{n:05d}"`). -/
def pad5 (n : Nat) : String :=
  let s := toString n
  String.mk (List.replicate (5 - s.length) '0') ++ s

/-- `Orchestrator._video_out_path(turn_id, speaker)`:
`VIDEO_DIR / f"turn_{turn_id:05d}_{speaker}.mp4"`. -/
def videoOutPath (videoDir : String) (turnId : Nat) (speaker : String) : String :=
  videoDir ++ "/turn_" ++ pad5 turnId ++ "_" ++ speaker ++ ".mp4"

/-- The four external HeyGen sub-steps of `_render_video_for_turn`. -/
inductive HCall
  | upload
  | generate
  | poll
  | download
deriving DecidableEq

/-- File system as a partial map from path to file size (`none` when the
path does not exist). -/
def VFS : Type := String → Option Nat

/-- `Orchestrator._render_video_for_turn`: uploads the audio, requests
the render, polls, downloads to the expected path (written with the size
the service delivers), and performs exactly the four external calls. -/
def renderVideoForTurn (fs : VFS) (dlSize : Nat) (videoDir : String)
    (turnId : Nat) (speaker : String) : VFS × List HCall × String :=
  let p := videoOutPath videoDir turnId speaker
  (fun q => if q = p then some dlSize else fs q,
   [HCall.upload, HCall.generate, HCall.poll, HCall.download], p)

/-- The video branch of `Orchestrator.prefetch_next` (video mode): reuse
the cached file when it exists and is non-empty, otherwise render. -/
def videoPrefetchStep (fs : VFS) (dlSize : Nat) (videoDir : String)
    (turnId : Nat) (speaker : String) : VFS × List HCall × String :=
  let p := videoOutPath videoDir turnId speaker
  if 0 < (fs p).getD 0 then (fs, [], p)
  else renderVideoForTurn fs dlSize videoDir turnId speaker

/-! ## src/orchestrator.py — playback driver (empty-queue branch) -/

/-- Configuration slice of `play_next` relevant to the idle branch. -/
structure PlayCfg where
  textOnly : Bool
  sceneIdle : String
  idleSleepS : ℚ
deriving DecidableEq

/-- Mutable orchestrator fields touched by the idle branch of
`play_next`. -/
structure PlayerState where
  queue : List QTurn
  turnSeq : Nat
  lastScene : Option String
deriving DecidableEq

/-- Externally visible actions of `play_next`. -/
inductive PEffect
  | overlayIdle
  | setScene (scene : String)
  | sleep (seconds : ℚ)
  | beginTurn (t : QTurn)
deriving DecidableEq

/-- `Orchestrator.play_next`: pop under the lock; on an empty queue show
the idle scene (only when not already active and not in text-only mode),
sleep the idle interval and return `none`; on a non-empty queue hand the
head turn to the playback pipeline (whose further effects are outside
this model). -/
def playNext (cfg : PlayCfg) (st : PlayerState) :
    Option QTurn × PlayerState × List PEffect :=
  match st.queue with
  | [] =>
    if ¬ cfg.textOnly ∧ st.lastScene ≠ some cfg.sceneIdle then
      (none, { st with lastScene := some cfg.sceneIdle },
       [PEffect.overlayIdle, PEffect.setScene cfg.sceneIdle,
        PEffect.sleep cfg.idleSleepS])
    else
      (none, st, [PEffect.sleep cfg.idleSleepS])
  | t :: rest =>
    (some t, { st with queue := rest }, [PEffect.beginTurn t])

/-! ## Claim theorems -/

theorem retryGo_zero (f : Nat → Except E A) (attempt : Nat) (lastErr : Option E) :
    retryGo f attempt 0 lastErr = (Except.error lastErr, 0) := rfl

theorem retryGo_succ (f : Nat → Except E A) (attempt fuel : Nat) (lastErr : Option E) :
    retryGo f attempt (fuel + 1) lastErr =
      match f attempt with
      | Except.ok a => (Except.ok a, 1)
      | Except.error e =>
        let r := retryGo f (attempt + 1) fuel (some e)
        (r.1, r.2 + 1) := rfl

/-- If every attempt in the window fails, `retryGo` consumes all its fuel
and reports the error of the final attempt. -/
theorem retryGo_allFail (f : Nat → Except E A) :
    ∀ (fuel attempt : Nat) (le0 : Option E) (e : E),
      1 ≤ fuel →
      (∀ k, attempt ≤ k → k < attempt + fuel → ∃ err, f k = Except.error err) →
      f (attempt + fuel - 1) = Except.error e →
      retryGo f attempt fuel le0 = (Except.error (some e), fuel) := by
  intro fuel
  induction fuel with
  | zero => intro _ _ _ h; omega
  | succ n ih =>
    intro attempt le0 e _ hall hlast
    rw [retryGo_succ]
    rcases Nat.eq_zero_or_pos n with hn | hn
    · subst hn
      have : attempt + 1 - 1 = attempt := by omega
      rw [this] at hlast
      simp [hlast, retryGo_zero]
    · obtain ⟨err, herr⟩ := hall attempt (Nat.le_refl _) (by omega)
      rw [herr]
      have hrec := ih (attempt + 1) (some err) e hn
        (fun k hk1 hk2 => hall k (by omega) (by omega))
        (by have : attempt + 1 + n - 1 = attempt + (n + 1) - 1 := by omega
            rw [this]; exact hlast)
      simp [hrec]

theorem qStep_inv {maxTurns : Int} {s s' : QState}
    (hstep : QStep maxTurns s s') (hinv : qInv s) : qInv s' := by
  obtain ⟨ih1, ih2⟩ := hinv
  cases hstep with
  | prefetch hmax =>
    constructor
    · show (s.played ++ (s.queue ++ _)).map QTurn.id = _
      rw [← List.append_assoc, List.map_append, ih1, List.range'_concat]
      simp [Nat.add_comm]
    · intro t ht
      rw [← List.append_assoc] at ht
      rcases List.mem_append.mp ht with h1 | h2
      · exact ih2 t h1
      · simp only [List.mem_singleton] at h2
        subst h2; rfl
  | prefetchStop h => exact ⟨ih1, ih2⟩
  | playTurn t rest hq =>
    rw [hq] at ih1 ih2
    constructor
    · show ((s.played ++ [t]) ++ rest).map QTurn.id = _
      rw [List.append_assoc]
      simpa using ih1
    · intro u hu
      apply ih2
      rw [List.append_assoc] at hu
      simpa using hu
  | playIdle h => exact ⟨ih1, ih2⟩

theorem qReach_inv {maxTurns : Int} {s : QState} (h : QReach maxTurns s) :
    qInv s := by
  induction h with
  | init => exact ⟨rfl, by intro t ht; cases ht⟩
  | step _ hstep ih => exact qStep_inv hstep ih

theorem retryGo_stepError (f : Nat → Except E A) (attempt fuel : Nat)
    (lastErr : Option E) (e : E) (h : f attempt = Except.error e) :
    retryGo f attempt (fuel + 1) lastErr =
      ((retryGo f (attempt + 1) fuel (some e)).1,
       (retryGo f (attempt + 1) fuel (some e)).2 + 1) := by
  rw [retryGo_succ, h]

theorem retryGo_stepOk (f : Nat → Except E A) (attempt fuel : Nat)
    (lastErr : Option E) (a : A) (h : f attempt = Except.ok a) :
    retryGo f attempt (fuel + 1) lastErr = (Except.ok a, 1) := by
  rw [retryGo_succ, h]

theorem playNext_nil (cfg : PlayCfg) (n : Nat) (ls : Option String) :
    playNext cfg ⟨[], n, ls⟩ =
      if ¬ cfg.textOnly ∧ ls ≠ some cfg.sceneIdle then
        (none, ⟨[], n, some cfg.sceneIdle⟩,
         [PEffect.overlayIdle, PEffect.setScene cfg.sceneIdle,
          PEffect.sleep cfg.idleSleepS])
      else (none, ⟨[], n, ls⟩, [PEffect.sleep cfg.idleSleepS]) := rfl


/-- C1: for every turn produced by the orchestrator the speaker is
role "A" exactly when the sequence number is odd and "B" exactly when it
is even (`_next_speaker`), and every turn enqueued by `prefetch_next`
carries the parity speaker of its sequence number. -/
theorem speaker_alternation :
    (∀ n : Nat, (nextSpeaker n = "A" ↔ n % 2 = 1) ∧
      (nextSpeaker n = "B" ↔ n % 2 = 0)) ∧
    (∀ (maxTurns : Int) (s : QState), QReach maxTurns s →
      ∀ t ∈ s.queue, t.speaker = nextSpeaker t.id) := by
  constructor
  · intro n
    rcases Nat.mod_two_eq_zero_or_one n with h | h <;>
      refine ⟨?_, ?_⟩ <;> simp [nextSpeaker, h]
  · intro m s hs t ht
    exact (qReach_inv hs).2 t (List.mem_append.mpr (Or.inr ht))

/-- Witness for C1 at turn numbers 3 and 1, on the state reached by one
prefetch step. -/
theorem speaker_alternation_witness :
    nextSpeaker 3 = "A" ∧ (QTurn.mk 1 "A").speaker = nextSpeaker 1 := by
  refine ⟨(speaker_alternation.1 3).1.mpr (by decide), ?_⟩
  have hr : QReach 0 ⟨1, [⟨1, "A"⟩], []⟩ :=
    QReach.step QReach.init (QStep.prefetch qInit (Or.inl (by decide)))
  exact speaker_alternation.2 0 ⟨1, [⟨1, "A"⟩], []⟩ hr ⟨1, "A"⟩ (by simp)

/-- C2: the producer appends only at the tail and the consumer pops only
the head, so in every reachable state the already-played turns have
strictly increasing sequence numbers, every pending turn's number
exceeds every played one, and the pending queue itself is ordered —
turns are dequeued and played in strictly increasing id order. -/
theorem fifo_ordering (maxTurns : Int) (s : QState) (h : QReach maxTurns s) :
    ((s.played.map QTurn.id).Pairwise (· < ·)) ∧
    (∀ p ∈ s.played, ∀ q ∈ s.queue, p.id < q.id) ∧
    ((s.queue.map QTurn.id).Pairwise (· < ·)) := by
  have hinv := (qReach_inv h).1
  have hp : ((s.played ++ s.queue).map QTurn.id).Pairwise (· < ·) := by
    rw [hinv]
    exact List.pairwise_lt_range' 1 s.turnSeq
  rw [List.map_append, List.pairwise_append] at hp
  obtain ⟨h1, h2, h3⟩ := hp
  refine ⟨h1, ?_, h2⟩
  intro p hpmem q hqmem
  exact h3 p.id (List.mem_map_of_mem _ hpmem) q.id (List.mem_map_of_mem _ hqmem)

/-- Witness for C2 on the state reached by two prefetch steps and one
playback step: played = [turn 1], queue = [turn 2]. -/
theorem fifo_ordering_witness :
    ((([⟨1, "A"⟩] : List QTurn)).map QTurn.id).Pairwise (· < ·) ∧
    (∀ p ∈ ([⟨1, "A"⟩] : List QTurn), ∀ q ∈ ([⟨2, "B"⟩] : List QTurn),
      p.id < q.id) ∧
    ((([⟨2, "B"⟩] : List QTurn)).map QTurn.id).Pairwise (· < ·) := by
  have h1 : QReach 0 ⟨1, [⟨1, "A"⟩], []⟩ :=
    QReach.step QReach.init (QStep.prefetch qInit (Or.inl (by decide)))
  have h2 : QReach 0 ⟨2, [⟨1, "A"⟩, ⟨2, "B"⟩], []⟩ :=
    QReach.step h1 (QStep.prefetch ⟨1, [⟨1, "A"⟩], []⟩ (Or.inl (by decide)))
  have h3 : QReach 0 ⟨2, [⟨2, "B"⟩], [⟨1, "A"⟩]⟩ :=
    QReach.step h2 (QStep.playTurn ⟨2, [⟨1, "A"⟩, ⟨2, "B"⟩], []⟩ ⟨1, "A"⟩ [⟨2, "B"⟩] rfl)
  exact fifo_ordering 0 ⟨2, [⟨2, "B"⟩], [⟨1, "A"⟩]⟩ h3

/-- C10: calling `retry` with a non-positive `max_retries` never invokes
`fn` (zero calls) and never returns normally: the final `raise last_err`
fires with `last_err` still `None`, an exception that is not an error
produced by `fn` (modelled as `Except.error none`). -/
theorem retry_nonpositive_budget (f : Nat → Except E A) (m : Int) (hm : m ≤ 0) :
    retryRun f m = (Except.error none, 0) := by
  unfold retryRun
  rw [Int.toNat_of_nonpos hm, retryGo_zero]

/-- Witness for C10 with an always-succeeding function and budget 0. -/
theorem retry_nonpositive_budget_witness :
    retryRun (fun _ => (Except.ok 0 : Except Nat Nat)) 0 = (Except.error none, 0) :=
  retry_nonpositive_budget _ 0 (by decide)

/-- C3: with a budget of at least 3 attempts, a function failing exactly
twice before succeeding is called exactly 3 times and its success value
returned; a function failing on every attempt makes `retry` re-raise the
error of the last attempt after `max_retries` calls; and the sleep after
failed attempt k is `min(max_delay, base*2^(k-1))` scaled by the jitter
factor `0.7 + r*0.6`, hence within `[0.7*m, 1.3*m]` for the capped
magnitude `m`. -/
theorem retry_contract :
    (∀ (A E : Type) (f : Nat → Except E A) (a : A) (m : Int) (e1 e2 : E),
      3 ≤ m → f 1 = Except.error e1 → f 2 = Except.error e2 →
      f 3 = Except.ok a → retryRun f m = (Except.ok a, 3)) ∧
    (∀ (A E : Type) (g : Nat → Except E A) (m : Int) (e : E),
      3 ≤ m → (∀ k, 1 ≤ k → k ≤ m.toNat → ∃ err, g k = Except.error err) →
      g m.toNat = Except.error e →
      retryRun g m = (Except.error (some e), m.toNat)) ∧
    (∀ (base maxD r : ℚ) (k : Nat), 0 ≤ base → 0 ≤ maxD → 0 ≤ r → r ≤ 1 →
      7/10 * min maxD (base * 2 ^ (k - 1)) ≤ retryDelay base maxD k r ∧
      retryDelay base maxD k r ≤ 13/10 * min maxD (base * 2 ^ (k - 1))) := by
  refine ⟨?_, ?_, ?_⟩
  · intro A E f a m e1 e2 hm h1 h2 h3
    obtain ⟨n, hn⟩ : ∃ n, m.toNat = n + 3 := ⟨m.toNat - 3, by omega⟩
    unfold retryRun
    rw [hn, show n + 3 = (n + 2) + 1 by omega,
        retryGo_stepError f 1 (n + 2) none e1 h1,
        show n + 2 = (n + 1) + 1 by omega,
        retryGo_stepError f 2 (n + 1) (some e1) e2 h2,
        retryGo_stepOk f 3 n (some e2) a h3]
  · intro A E g m e hm hall hlast
    unfold retryRun
    exact retryGo_allFail g m.toNat 1 none e (by omega)
      (fun k hk1 hk2 => hall k hk1 (by omega))
      (by rw [show 1 + m.toNat - 1 = m.toNat by omega]; exact hlast)
  · intro base maxD r k hb hM hr0 hr1
    unfold retryDelay
    have hmin : 0 ≤ min maxD (base * 2 ^ (k - 1)) := le_min hM (by positivity)
    constructor
    · nlinarith [mul_nonneg hmin hr0]
    · nlinarith [mul_nonneg hmin (sub_nonneg.mpr hr1), mul_nonneg hmin hr0]

/-- Witness for C3: two failures then success with budget 5; constant
failure with budget 3; delay band at k = 1 with zero jitter draw. -/
theorem retry_contract_witness :
    retryRun (fun k => if k = 3 then Except.ok 7 else Except.error "boom") 5 =
      (Except.ok 7, 3) ∧
    retryRun (fun _ => (Except.error "down" : Except String Nat)) 3 =
      (Except.error (some "down"), 3) ∧
    7/10 * min 10 ((4/5 : ℚ) * 2 ^ (1 - 1)) ≤ retryDelay (4/5) 10 1 0 ∧
    retryDelay (4/5) 10 1 0 ≤ 13/10 * min 10 ((4/5 : ℚ) * 2 ^ (1 - 1)) := by
  refine ⟨?_, ?_, ?_, ?_⟩
  · exact retry_contract.1 Nat String _ 7 5 "boom" "boom" (by decide) rfl rfl rfl
  · exact retry_contract.2.1 Nat String _ 3 "down" (by decide)
      (fun k _ _ => ⟨"down", rfl⟩) rfl
  · exact (retry_contract.2.2 (4/5) 10 0 1 (by norm_num) (by norm_num)
      (by norm_num) (by norm_num)).1
  · exact (retry_contract.2.2 (4/5) 10 0 1 (by norm_num) (by norm_num)
      (by norm_num) (by norm_num)).2

/-- C8: when the external text-generation call fails on every retry
attempt, `generate_turn` does not raise: it returns the configured
fallback bridge phrase for the speaker, post-processed by the same
sentence truncation, together with the elapsed latency. -/
theorem generate_turn_degrades (calls : Nat → Except String String)
    (speaker : String) (env : BridgeEnv) (maxSentences : Int) (elapsed : ℚ)
    (hfail : ∀ k, ∃ e, calls k = Except.error e) :
    generateTurn calls speaker env maxSentences elapsed =
      (limitSentences (bridgePhrase env speaker) maxSentences, elapsed) := by
  obtain ⟨e5, h5⟩ := hfail 5
  have hrun := retryGo_allFail calls 5 1 none e5 (by omega)
    (fun k _ _ => hfail k) (by simpa using h5)
  unfold generateTurn generateTurnText retryRun
  rw [show ((5 : Int).toNat) = 5 from rfl, hrun]

/-- Witness for C8: an always-failing collaborator with the default
environment and a 2-sentence budget. -/
theorem generate_turn_degrades_witness :
    generateTurn (fun _ => Except.error "down") "A" ⟨none, none, none⟩ 2 1 =
      (limitSentences (bridgePhrase ⟨none, none, none⟩ "A") 2, 1) :=
  generate_turn_degrades _ "A" _ 2 1 (fun _ => ⟨"down", rfl⟩)

/-- C7: in video mode, when a non-empty file already sits at the
expected output path for a (turn id, speaker) pair, the render step
reuses it untouched and performs none of the four external sub-steps
(upload, generate, poll, download); consequently a second run of the
render step for the same pair after a successful first run makes no
external call at all. -/
theorem video_render_idempotent (fs : VFS) (dlSize : Nat) (videoDir : String)
    (turnId : Nat) (speaker : String) (hdl : 0 < dlSize) :
    (0 < ((fs (videoOutPath videoDir turnId speaker)).getD 0) →
      videoPrefetchStep fs dlSize videoDir turnId speaker =
        (fs, [], videoOutPath videoDir turnId speaker)) ∧
    (videoPrefetchStep
        (videoPrefetchStep fs dlSize videoDir turnId speaker).1
        dlSize videoDir turnId speaker).2.1 = [] := by
  constructor
  · intro hcached
    unfold videoPrefetchStep
    rw [if_pos hcached]
  · by_cases hcached : 0 < ((fs (videoOutPath videoDir turnId speaker)).getD 0)
    · simp [videoPrefetchStep, hcached]
    · simp [videoPrefetchStep, renderVideoForTurn, hcached, hdl]

/-- Witness for C7: a one-file file system that already holds a
non-empty render for turn 1 of speaker "A". -/
theorem video_render_idempotent_witness :
    (0 < (((fun p => if p = videoOutPath "video" 1 "A" then some 3 else none) :
        VFS) (videoOutPath "video" 1 "A")).getD 0 →
      videoPrefetchStep
        (fun p => if p = videoOutPath "video" 1 "A" then some 3 else none)
        3 "video" 1 "A" =
        ((fun p => if p = videoOutPath "video" 1 "A" then some 3 else none),
         [], videoOutPath "video" 1 "A")) ∧
    (videoPrefetchStep
        (videoPrefetchStep
          (fun p => if p = videoOutPath "video" 1 "A" then some 3 else none)
          3 "video" 1 "A").1
        3 "video" 1 "A").2.1 = [] :=
  video_render_idempotent
    (fun p => if p = videoOutPath "video" 1 "A" then some 3 else none)
    3 "video" 1 "A" (by decide)

/-- C9: when `play_next` observes an empty queue it consumes nothing
(queue and turn counter unchanged), returns empty, sleeps the configured
idle interval, and — outside text-only mode — shows the idle scene,
switching only when the idle scene is not already active. -/
theorem play_next_empty_queue (cfg : PlayCfg) (st : PlayerState)
    (hq : st.queue = []) :
    (playNext cfg st).1 = none ∧
    (playNext cfg st).2.1.queue = [] ∧
    (playNext cfg st).2.1.turnSeq = st.turnSeq ∧
    PEffect.sleep cfg.idleSleepS ∈ (playNext cfg st).2.2 ∧
    (¬ cfg.textOnly →
      (st.lastScene ≠ some cfg.sceneIdle →
        (playNext cfg st).2.2 =
          [PEffect.overlayIdle, PEffect.setScene cfg.sceneIdle,
           PEffect.sleep cfg.idleSleepS] ∧
        (playNext cfg st).2.1.lastScene = some cfg.sceneIdle) ∧
      (st.lastScene = some cfg.sceneIdle →
        (playNext cfg st).2.2 = [PEffect.sleep cfg.idleSleepS] ∧
        (playNext cfg st).2.1.lastScene = st.lastScene)) := by
  obtain ⟨q, n, ls⟩ := st
  cases hq
  rw [playNext_nil]
  by_cases h : ¬ cfg.textOnly ∧ ls ≠ some cfg.sceneIdle
  · rw [if_pos h]
    exact ⟨rfl, rfl, rfl, by simp,
      fun _ => ⟨fun _ => ⟨rfl, rfl⟩, fun heq => absurd heq h.2⟩⟩
  · rw [if_neg h]
    refine ⟨rfl, rfl, rfl, by simp, fun htext => ⟨?_, fun _ => ⟨rfl, rfl⟩⟩⟩
    intro hne
    exact absurd (And.intro htext hne) h

/-- Witness for C9: empty queue, presentation mode enabled, idle scene
not yet active. -/
theorem play_next_empty_queue_witness :
    (playNext ⟨false, "IDLE", 1⟩ ⟨[], 4, some "SPEAK_A"⟩).1 = none ∧
    (playNext ⟨false, "IDLE", 1⟩ ⟨[], 4, some "SPEAK_A"⟩).2.1.queue = [] ∧
    (playNext ⟨false, "IDLE", 1⟩ ⟨[], 4, some "SPEAK_A"⟩).2.1.turnSeq =
      (PlayerState.mk [] 4 (some "SPEAK_A")).turnSeq ∧
    PEffect.sleep ((1 : ℚ)) ∈ (playNext ⟨false, "IDLE", 1⟩ ⟨[], 4, some "SPEAK_A"⟩).2.2 ∧
    (¬ (PlayCfg.mk false "IDLE" 1).textOnly →
      ((PlayerState.mk [] 4 (some "SPEAK_A")).lastScene ≠ some "IDLE" →
        (playNext ⟨false, "IDLE", 1⟩ ⟨[], 4, some "SPEAK_A"⟩).2.2 =
          [PEffect.overlayIdle, PEffect.setScene "IDLE", PEffect.sleep 1] ∧
        (playNext ⟨false, "IDLE", 1⟩ ⟨[], 4, some "SPEAK_A"⟩).2.1.lastScene =
          some "IDLE") ∧
      ((PlayerState.mk [] 4 (some "SPEAK_A")).lastScene = some "IDLE" →
        (playNext ⟨false, "IDLE", 1⟩ ⟨[], 4, some "SPEAK_A"⟩).2.2 =
          [PEffect.sleep 1] ∧
        (playNext ⟨false, "IDLE", 1⟩ ⟨[], 4, some "SPEAK_A"⟩).2.1.lastScene =
          (PlayerState.mk [] 4 (some "SPEAK_A")).lastScene)) :=
  play_next_empty_queue ⟨false, "IDLE", 1⟩ ⟨[], 4, some "SPEAK_A"⟩ rfl

/-- C5: on an input that the sentence splitter of `_limit_sentences`
decomposes into exactly 5 sentences (a sentence being a maximal run of
characters closed by its trailing '.', '!', '?' or ellipsis run, or by
the end of the string), `max_sentences = 2` returns exactly the first
two sentences, joined by a single space as the code does. -/
theorem limit_sentences_first_two (text s1 s2 s3 s4 s5 : String)
    (hparts : sentParts text = [s1, s2, s3, s4, s5]) :
    limitSentences text 2 = pyStrip (s1 ++ " " ++ s2) := by
  unfold limitSentences
  rw [if_neg (by norm_num : ¬ (2 : Int) ≤ 0), hparts,
      if_neg (by simp : ¬ ([s1, s2, s3, s4, s5] = []))]
  rfl

/-- Witness for C5 on a concrete 5-sentence input. -/
theorem limit_sentences_first_two_witness :
    sentParts "One. Two! Three? Four… Five." =
      ["One.", "Two!", "Three?", "Four…", "Five."] ∧
    limitSentences "One. Two! Three? Four… Five." 2 =
      pyStrip ("One." ++ " " ++ "Two!") :=
  ⟨by decide, limit_sentences_first_two "One. Two! Three? Four… Five."
    "One." "Two!" "Three?" "Four…" "Five." (by decide)⟩

theorem setOverride_live (st : TopicState) (topic : String) (now ttl : ℚ)
    (source : String) (author : Option String) (h : pyStrip topic ≠ "") :
    setOverride st topic now ttl source author =
      { st with overrideTopic := some (pyStrip topic),
                overrideExpiresAt := some (now + ttl),
                overrideSource := some source, overrideAuthor := author } := by
  unfold setOverride
  rw [if_neg h]

theorem topicGet_live (reloadS : ℚ) (st : TopicState) (now : ℚ) (w : TopicWorld)
    (hT : pyTruthyS st.overrideTopic) (hE : pyTruthyQ st.overrideExpiresAt)
    (hlt : now < st.overrideExpiresAt.getD 0) :
    topicGet reloadS st now w = (st.overrideTopic.getD "", st) := by
  unfold topicGet
  rw [if_pos ⟨hT, hE, hlt⟩]

theorem topicGet_expired (reloadS : ℚ) (st : TopicState) (now : ℚ) (w : TopicWorld)
    (hT : pyTruthyS st.overrideTopic) (hE : pyTruthyQ st.overrideExpiresAt)
    (hle : st.overrideExpiresAt.getD 0 ≤ now) :
    topicGet reloadS st now w =
      topicGetNoOverride reloadS (clearOverride st) now w := by
  unfold topicGet
  rw [if_neg (fun hc => absurd hc.2.2 (not_lt.mpr hle)), if_pos ⟨hT, hE, hle⟩]

theorem topicGetNoOverride_env (reloadS : ℚ) (st : TopicState) (now : ℚ)
    (w : TopicWorld) (h : pyTruthyS w.envTopic) :
    topicGetNoOverride reloadS st now w =
      (pyStrip (w.envTopic.getD ""),
       { st with cached := some (pyStrip (w.envTopic.getD "")) }) := by
  unfold topicGetNoOverride
  rw [if_pos h]

theorem topicGetNoOverride_default (reloadS : ℚ) (st : TopicState) (now : ℚ)
    (w : TopicWorld) (henv : w.envTopic = none) (hc : st.cached = none)
    (hf : w.fileExists = false) :
    (topicGetNoOverride reloadS st now w).1 = defaultTopic := by
  simp [topicGetNoOverride, henv, hc, hf, pyTruthyS]

theorem topicGetNoOverride_fileReload (reloadS : ℚ) (st : TopicState) (now : ℚ)
    (w : TopicWorld) (henv : w.envTopic = none) (hc : st.cached = none)
    (hf : w.fileExists = true) (hm : st.lastMtime ≠ some w.fileMtime)
    (ht : pyStrip w.fileText ≠ "") :
    (topicGetNoOverride reloadS st now w).1 = pyStrip w.fileText := by
  simp [topicGetNoOverride, henv, hc, hf, pyTruthyS, hm, ht]

/-- C6: after `set_override("X", ttl_s=10)` at time `t0`, an immediate
`get` returns "X"; any `get` 11 or more seconds later no longer consults
the override — it behaves exactly as with the override dropped, and the
result follows the priority chain: the environment topic when set, else
the file-backed topic (reloaded when the file's modification time
changed), else the hardcoded default. -/
theorem topic_override_expiry (st : TopicState) (t0 reloadS : ℚ) (ht0 : 0 ≤ t0) :
    (∀ w : TopicWorld,
      (topicGet reloadS (setOverride st "X" t0 10 "chat" none) t0 w).1 = "X") ∧
    (∀ (w : TopicWorld) (t1 : ℚ), t0 + 11 ≤ t1 →
      topicGet reloadS (setOverride st "X" t0 10 "chat" none) t1 w =
        topicGetNoOverride reloadS
          (clearOverride (setOverride st "X" t0 10 "chat" none)) t1 w) ∧
    (∀ (w : TopicWorld) (t1 : ℚ) (e : String), t0 + 11 ≤ t1 →
      w.envTopic = some e → e ≠ "" →
      (topicGet reloadS (setOverride st "X" t0 10 "chat" none) t1 w).1 =
        pyStrip e) ∧
    (∀ (w : TopicWorld) (t1 : ℚ), t0 + 11 ≤ t1 →
      w.envTopic = none → st.cached = none → w.fileExists = false →
      (topicGet reloadS (setOverride st "X" t0 10 "chat" none) t1 w).1 =
        defaultTopic) ∧
    (∀ (w : TopicWorld) (t1 : ℚ), t0 + 11 ≤ t1 →
      w.envTopic = none → st.cached = none → w.fileExists = true →
      st.lastMtime ≠ some w.fileMtime → pyStrip w.fileText ≠ "" →
      (topicGet reloadS (setOverride st "X" t0 10 "chat" none) t1 w).1 =
        pyStrip w.fileText) := by
  have hset := setOverride_live st "X" t0 10 "chat" none (by decide)
  have hT : pyTruthyS (some (pyStrip "X")) := by decide
  have hE : pyTruthyQ (some (t0 + 10)) := by
    simp only [pyTruthyQ, ne_eq, decide_eq_true_eq]
    intro h
    linarith
  refine ⟨?_, ?_, ?_, ?_, ?_⟩
  · intro w
    rw [hset, topicGet_live reloadS _ t0 w hT hE
      (by simp only [Option.getD_some]; linarith)]
    rfl
  · intro w t1 h11
    rw [hset, topicGet_expired reloadS _ t1 w hT hE
      (by simp only [Option.getD_some]; linarith)]
  · intro w t1 e h11 henv he
    rw [hset, topicGet_expired reloadS _ t1 w hT hE
      (by simp only [Option.getD_some]; linarith),
        topicGetNoOverride_env reloadS _ t1 w (by rw [henv]; simpa [pyTruthyS]),
        henv]
    rfl
  · intro w t1 h11 henv hc hf
    rw [hset, topicGet_expired reloadS _ t1 w hT hE
      (by simp only [Option.getD_some]; linarith)]
    exact topicGetNoOverride_default reloadS _ t1 w henv hc hf
  · intro w t1 h11 henv hc hf hm ht
    rw [hset, topicGet_expired reloadS _ t1 w hT hE
      (by simp only [Option.getD_some]; linarith)]
    exact topicGetNoOverride_fileReload reloadS _ t1 w henv hc hf hm ht

/-- Witness for C6: fresh provider state, override set at time 0, read
back immediately and at time 11 with no environment topic and no file. -/
theorem topic_override_expiry_witness :
    (topicGet 180 (setOverride topicInit "X" 0 10 "chat" none) 0
      ⟨none, false, 0, ""⟩).1 = "X" ∧
    (topicGet 180 (setOverride topicInit "X" 0 10 "chat" none) 11
      ⟨none, false, 0, ""⟩).1 = defaultTopic :=
  ⟨(topic_override_expiry topicInit 0 180 (by norm_num)).1 ⟨none, false, 0, ""⟩,
   (topic_override_expiry topicInit 0 180 (by norm_num)).2.2.2.1
     ⟨none, false, 0, ""⟩ 11 (by norm_num) rfl rfl rfl⟩

theorem mem_insertSorted {x y : String} {l : List String} :
    y ∈ insertSorted x l ↔ y = x ∨ y ∈ l := by
  induction l with
  | nil => simp [insertSorted]
  | cons a as ih =>
    unfold insertSorted
    by_cases h : x ≤ a
    · rw [if_pos h]
      simp [List.mem_cons]
    · rw [if_neg h]
      simp only [List.mem_cons, ih]
      tauto

theorem mem_foldr_insertSorted {y : String} :
    ∀ l : List String, y ∈ l.foldr insertSorted [] ↔ y ∈ l := by
  intro l
  induction l with
  | nil => simp
  | cons a as ih =>
    simp only [List.foldr, mem_insertSorted, ih, List.mem_cons]

theorem mem_pySortedSet {y : String} {l : List String} :
    y ∈ pySortedSet l ↔ y ∈ l := by
  unfold pySortedSet
  rw [mem_foldr_insertSorted, List.mem_dedup]

theorem mem_blockedClasses {history : List String} {w m : Int} {L : String}
    (hw : 0 < w) (hm : 0 < m) :
    L ∈ blockedClasses history w m ↔
      m ≤ ((recentTestClasses history w).count L : Int) := by
  unfold blockedClasses
  rw [if_pos ⟨hw, hm⟩]
  constructor
  · intro hmem
    by_cases hr : (recentTestClasses history w).isEmpty
    · rw [if_neg (by simpa using hr)] at hmem
      cases hmem
    · rw [if_pos (by simpa using hr)] at hmem
      have := (List.mem_filter.mp (mem_pySortedSet.mp hmem)).2
      simpa using this
  · intro hcount
    have hpos : 0 < (recentTestClasses history w).count L := by
      exact_mod_cast lt_of_lt_of_le hm hcount
    have hmemL : L ∈ recentTestClasses history w := List.count_pos_iff.mp hpos
    have hne : ¬ (recentTestClasses history w).isEmpty := by
      rw [List.isEmpty_iff]
      intro heq
      rw [heq] at hmemL
      cases hmemL
    rw [if_pos (by simpa using hne)]
    exact mem_pySortedSet.mpr
      (List.mem_filter.mpr ⟨hmemL, by simpa using hcount⟩)

theorem counts_le_length (xs : List String) (S : Finset String) :
    (∑ a in S, xs.count a) ≤ xs.length := by
  classical
  rw [← Finset.sum_subset (Finset.filter_subset (fun a => a ∈ xs) S)
      (by intro x hx hnx
          simp only [Finset.mem_filter, hx, true_and] at hnx
          exact List.count_eq_zero_of_not_mem hnx)]
  have hsub : S.filter (fun a => a ∈ xs) ⊆ (↑xs : Multiset String).toFinset := by
    intro a ha
    rw [Multiset.mem_toFinset]
    exact (Finset.mem_filter.mp ha).2
  calc ∑ a in S.filter (fun a => a ∈ xs), xs.count a
      = ∑ a in S.filter (fun a => a ∈ xs), (↑xs : Multiset String).count a := by
        refine Finset.sum_congr rfl ?_
        intro a _
        rw [Multiset.coe_count]
    _ ≤ ∑ a in (↑xs : Multiset String).toFinset, (↑xs : Multiset String).count a :=
        Finset.sum_le_sum_of_subset hsub
    _ = Multiset.card (↑xs : Multiset String) := Multiset.toFinset_sum_count_eq _
    _ = xs.length := Multiset.coe_card xs

theorem recentTestClasses_length_le (history : List String) :
    (recentTestClasses history 10).length ≤ 10 := by
  unfold recentTestClasses
  by_cases h : history.isEmpty
  · rw [if_pos h]
    simp
  · rw [if_neg h, if_pos (by norm_num : (10 : Int) > 0)]
    calc ((pyLastN (10 : Int).toNat history).filterMap classifyTest).length
        ≤ (pyLastN (10 : Int).toNat history).length :=
          List.length_filterMap_le _ _
      _ ≤ 10 := by
          unfold pyLastN
          rw [List.length_drop]
          omega

theorem cycle_index_hit (idx j : Nat) (hidx : idx < 7) (hj : j < 7) :
    ∃ i, i ∈ List.range 7 ∧ (idx + i) % 7 = j := by
  refine ⟨(j + 7 - idx) % 7, List.mem_range.mpr (by omega), by omega⟩

theorem blocked_not_all (history : List String) :
    ∃ c ∈ testCycle, c ∉ blockedClasses history 10 2 := by
  by_contra hall
  push_neg at hall
  have hcount : ∀ c ∈ testCycle,
      2 ≤ (recentTestClasses history 10).count c := by
    intro c hc
    have := (mem_blockedClasses (by norm_num) (by norm_num)).mp (hall c hc)
    exact_mod_cast this
  have hcard : testCycle.toFinset.card = 7 := by decide
  have hsum : 14 ≤ ∑ a in testCycle.toFinset,
      (recentTestClasses history 10).count a := by
    have h2 := Finset.card_nsmul_le_sum testCycle.toFinset
      (fun a => (recentTestClasses history 10).count a) 2
      (fun x hx => hcount x (List.mem_toFinset.mp hx))
    rw [hcard] at h2
    simpa using h2
  have hle := counts_le_length (recentTestClasses history 10) testCycle.toFinset
  have hlen := recentTestClasses_length_le history
  omega

theorem testCycle_getD_surj :
    ∀ c ∈ testCycle, ∃ j ∈ List.range 7, testCycle.getD j "" = c := by
  decide

theorem suggested_avoids_blocked (blocked : List String) (idx : Nat) (L : String)
    (hidx : idx < 7) (hLmem : L ∈ blocked)
    (hex : ∃ c ∈ testCycle, c ∉ blocked) :
    (if ¬ blocked.isEmpty ∧ (testCycle.getD idx "") ∈ blocked then
        match (List.range 7).find?
            (fun i => ¬ (testCycle.getD ((idx + i) % 7) "") ∈ blocked) with
        | some i => testCycle.getD ((idx + i) % 7) ""
        | none => testCycle.getD idx ""
      else testCycle.getD idx "") ≠ L := by
  by_cases hs : ¬ blocked.isEmpty ∧ (testCycle.getD idx "") ∈ blocked
  · rw [if_pos hs]
    cases hfind : (List.range 7).find?
        (fun i => ¬ (testCycle.getD ((idx + i) % 7) "") ∈ blocked) with
    | some i =>
      have hp := List.find?_some hfind
      simp only [decide_eq_true_eq] at hp
      intro heq
      dsimp only at heq
      rw [heq] at hp
      exact hp hLmem
    | none =>
      exfalso
      obtain ⟨c, hcmem, hcnot⟩ := hex
      obtain ⟨j, hj7, hjc⟩ := testCycle_getD_surj c hcmem
      obtain ⟨i, hi, hij⟩ := cycle_index_hit idx j hidx (List.mem_range.mp hj7)
      apply List.find?_eq_none.mp hfind i hi
      rw [hij, hjc]
      exact decide_eq_true hcnot
  · rw [if_neg hs]
    intro heq
    have hne : ¬ blocked.isEmpty = true := by
      rw [List.isEmpty_iff]
      intro hemp
      rw [hemp] at hLmem
      cases hLmem
    have hs0 : (testCycle.getD idx "") ∉ blocked := fun hmem => hs ⟨hne, hmem⟩
    rw [heq] at hs0
    exact hs0 hLmem

/-- C4: with `test_class_window = 10` and `test_class_max = 2`, a label
that the keyword classifier assigns to at least 2 of the last 10 history
entries is listed among the blocked classes of the throttling directive,
and the test-cycle rotation directive emitted for the next turn never
suggests that label. -/
theorem test_class_throttling (history : List String) (L : String)
    (hL : 2 ≤ (recentTestClasses history 10).count L) :
    L ∈ blockedClasses history 10 2 ∧
    ∀ (nextTurnId : Nat) (isClosing : Bool),
      rotationSuggestion (blockedClasses history 10 2) nextTurnId 4 isClosing ≠
        some L := by
  have hblocked : L ∈ blockedClasses history 10 2 :=
    (mem_blockedClasses (by norm_num) (by norm_num)).mpr (by exact_mod_cast hL)
  refine ⟨hblocked, ?_⟩
  intro n closing
  unfold rotationSuggestion
  by_cases hfire : ¬ closing = true ∧ (4 : Int) > 0 ∧ n > 1 ∧
      n % (4 : Int).toNat = 1
  · rw [if_pos hfire]
    intro heq
    exact suggested_avoids_blocked (blockedClasses history 10 2)
      ((n / (4 : Int).toNat) % testCycle.length) L
      (Nat.mod_lt _ (by decide)) hblocked (blocked_not_all history)
      (Option.some_inj.mp heq)
  · rw [if_neg hfire]
    simp

/-- Witness for C4: three of the last entries classify as "epigenetic
clocks", which is then blocked and never suggested by the rotation. -/
theorem test_class_throttling_witness :
    "epigenetic clocks" ∈ blockedClasses
      ["epigenetic clocks drift", "epigenetic noise", "epigenetic again"] 10 2 ∧
    rotationSuggestion
      (blockedClasses
        ["epigenetic clocks drift", "epigenetic noise", "epigenetic again"] 10 2)
      5 4 false ≠ some "epigenetic clocks" :=
  ⟨(test_class_throttling
      ["epigenetic clocks drift", "epigenetic noise", "epigenetic again"]
      "epigenetic clocks" (by decide)).1,
   (test_class_throttling
      ["epigenetic clocks drift", "epigenetic noise", "epigenetic again"]
      "epigenetic clocks" (by decide)).2 5 false⟩
